import Mathlib

/-!
Shallow embedding of the SentetikVeriTool repository (Turkish telecom synthetic
dialogue generator) and verification of its specification claims.

The embedding follows the Python sources under `src/`:
  * `src/config/config.py`                      — configuration constants,
    `get_scenario_distribution`
  * `src/generators/text_only_generator.py`     — text-only pipeline
  * `src/generators/main_generator.py`          — audio-enabled pipeline

Randomness (`random.choice`, `random.shuffle`) is modelled by explicit draw
oracles and permutation hypotheses; the filesystem (`Path.exists`) by an
explicit predicate; HTTP calls to TTS providers by outcome oracles.
-/

namespace SentetikVeri

/-! ## Configuration constants (src/config/config.py) -/

def TURNS_PER_DIALOG_MIN : ℕ := 6

def TURNS_PER_DIALOG_MAX : ℕ := 16

def MAX_RETRIES_PER_CONVERSATION : ℕ := 3

/-- Constant `SCENARIO_WEIGHTS` from src/config/config.py, in dict insertion order.
The Python floats 0.25/0.30/0.20/0.15/0.10 are represented exactly as
rationals. -/
def SCENARIO_WEIGHTS : List (String × ℚ) :=
  [("billing_dispute", 1/4), ("technical_support", 3/10), ("package_change", 1/5),
   ("roaming_inquiry", 3/20), ("account_management", 1/10)]

/-! ## Data model

One conversation turn, as assembled by the generators (`final_turn_data`
dicts).  The audio fields are `Option`-valued because the text-only pipeline
omits them (`'audio_duration' not in turn` in Python is `audio_duration =
none` here). -/

structure Turn where
  conversation_id : ℕ
  transcript : String
  speaker_id : String
  role : String
  intent : String
  audio_filepath : Option String := none
  audio_duration : Option ℚ := none
deriving DecidableEq, Repr

def dummyTurn : Turn := { conversation_id := 0, transcript := "", speaker_id := "",
                          role := "", intent := "" }

/-! ## Conversation validators -/

/-- Expected role at 0-based index `i`:
`"agent" if (i + 1) % 2 != 0 else "user"` in both validators. -/
def expectedRole (i : ℕ) : String := if (i + 1) % 2 ≠ 0 then "agent" else "user"

/-- Runs an indexed per-turn check over the history, like the
`for i, turn in enumerate(history)` loops of the validators. -/
def checkTurnsFrom (check : ℕ → Turn → Bool) : ℕ → List Turn → Bool
  | _, [] => true
  | i, t :: rest => check i t && checkTurnsFrom check (i + 1) rest

/-- Per-turn checks of `validate_text_conversation`
(src/generators/text_only_generator.py lines 237-247): expected role and
transcript length within [15, 300]. -/
def textTurnOk (i : ℕ) (t : Turn) : Bool :=
  (t.role == expectedRole i) &&
  (decide (15 ≤ t.transcript.length) && decide (t.transcript.length ≤ 300))

/-- Shared skeleton of both validators, which are near-identical copies in
the source: turn-count bounds, the indexed per-turn loop, then the
`history[-2]` and `history[-1]` terminal checks.  The `none` branches of
`get?`/`getLast?` return `false` — they are unreachable because the leading
turn-count conjunct already fails on short histories (Boolean `&&`
short-circuits exactly like the early `return False`). -/
def validate_common (check : ℕ → Turn → Bool) (history : List Turn) : Bool :=
  (decide (TURNS_PER_DIALOG_MIN ≤ history.length) &&
   decide (history.length ≤ TURNS_PER_DIALOG_MAX)) &&
  checkTurnsFrom check 0 history &&
  (match history.get? (history.length - 2) with
   | some t => (t.role == "agent") && (t.intent == "closing")
   | none => false) &&
  (match history.getLast? with
   | some t => (t.role == "user") && ((t.intent == "thanks") || (t.intent == "confirmation"))
   | none => false)

/-- Function `validate_text_conversation` (src/generators/text_only_generator.py
lines 230-259). -/
def validate_text_conversation (history : List Turn) : Bool :=
  validate_common textTurnOk history

/-- Per-turn checks of `validate_conversation_with_audio`
(src/generators/main_generator.py lines 684-705): expected role, audio file
existence (`pathlib.Path(turn.get('audio_filepath','')).exists()`, modelled
by the filesystem oracle `fsExists`), positive audio duration, and
transcript length within [20, 200]. -/
def audioTurnOk (fsExists : String → Bool) (i : ℕ) (t : Turn) : Bool :=
  (t.role == expectedRole i) &&
  fsExists (t.audio_filepath.getD "") &&
  (match t.audio_duration with
   | some d => decide (0 < d)
   | none => false) &&
  (decide (20 ≤ t.transcript.length) && decide (t.transcript.length ≤ 200))

/-- Function `validate_conversation_with_audio` (src/generators/main_generator.py
lines 677-717).  `fsExists` models the state of the filesystem consulted by
`Path.exists`. -/
def validate_conversation_with_audio (history : List Turn) (fsExists : String → Bool) : Bool :=
  validate_common (audioTurnOk fsExists) history

/-- Structural invariants of an accepted conversation, as stated by the
specification: strict role alternation starting with agent, even length
within the configured bounds, agent/"closing" at position -2 and
user/"thanks"-or-"confirmation" at position -1. -/
def ConvStructOk (history : List Turn) : Prop :=
  (∀ i, i < history.length → (history.getD i dummyTurn).role = expectedRole i) ∧
  history.length % 2 = 0 ∧
  TURNS_PER_DIALOG_MIN ≤ history.length ∧
  history.length ≤ TURNS_PER_DIALOG_MAX ∧
  (∃ t, history.get? (history.length - 2) = some t ∧ t.role = "agent" ∧ t.intent = "closing") ∧
  (∃ t, history.getLast? = some t ∧ t.role = "user" ∧
    (t.intent = "thanks" ∨ t.intent = "confirmation"))

/-! ## ScenarioSelector (src/config/config.py, get_scenario_distribution) -/

/-- The deterministic part of `get_scenario_distribution`: for each
`(scenario, weight)` pair append `int(N * weight)` copies
(`int` truncates; weights are non-negative, so this is the floor). -/
def scenarioBase (N : ℕ) (weights : List (String × ℚ)) : List String :=
  (weights.map (fun p => List.replicate (Int.toNat ⌊(N : ℚ) * p.2⌋) p.1)).flatten

/-- The `while len(scenarios) < N` back-fill loop: one weighted-random draw
(modelled by the oracle `draws`) per missing slot. -/
def fillScenarios (N : ℕ) (base : List String) (draws : ℕ → String) : List String :=
  base ++ (List.range (N - base.length)).map draws

/-- Function `get_scenario_distribution` (src/config/config.py lines 243-258):
build the floor-count base, back-fill to N with random draws, shuffle
(`shuffle` is the `random.shuffle` oracle; theorems assume it permutes),
and truncate to N. -/
def get_scenario_distribution (N : ℕ) (weights : List (String × ℚ)) (draws : ℕ → String)
    (shuffle : List String → List String) : List String :=
  (shuffle (fillScenarios N (scenarioBase N weights) draws)).take N

/-! ## Gender inference and voice selection (src/generators/main_generator.py) -/

def TURKISH_MALE_NAMES : List String :=
  ["Ahmet", "Mehmet", "Ali", "Veli", "Burak", "Cem", "Furkan", "Hakan",
   "Kemal", "Murat", "Oğuz", "Rıza", "Tolga", "Ufuk", "Volkan", "Zeki",
   "Emre", "Serkan", "Özkan", "Taner", "Selim", "Berk", "Kaan", "Onur",
   "Barış", "Arda", "Eren", "Kağan", "Alper", "Sinan", "Gökhan", "Erhan"]

def TURKISH_FEMALE_NAMES : List String :=
  ["Ayşe", "Fatma", "Zeynep", "Elif", "Deniz", "Ece", "Gül", "İrem",
   "Leyla", "Nalan", "Pınar", "Seda", "Yasemin", "Aslı", "Ebru", "Gamze",
   "Hülya", "Işıl", "Jale", "Kübra", "Lale", "Melike", "Nazlı", "Özlem",
   "Pelin", "Reyhan", "Sibel", "Tülay", "Ülkü", "Vildan", "Yeliz", "Zuhal"]

/-- Python `name.endswith(('e', 'a', 'ş', 'ü', 'ö'))`: the suffixes all have length
one, so this is a check on the last character (false for the empty string,
as in Python). -/
def endsInFemaleSuffix (name : String) : Bool :=
  match name.toList.getLast? with
  | some c => c = 'e' || c = 'a' || c = 'ş' || c = 'ü' || c = 'ö'
  | none => false

/-- Function `get_gender_from_name` (src/generators/main_generator.py lines 177-188;
identical copy in text_only_generator.py lines 51-62). -/
def get_gender_from_name (name : String) : String :=
  if name ∈ TURKISH_MALE_NAMES then "male"
  else if name ∈ TURKISH_FEMALE_NAMES then "female"
  else if endsInFemaleSuffix name then "female"
  else "male"

/-- Keys of `ENHANCED_VOICE_CONFIGS` (src/generators/main_generator.py lines
71-175), in dict insertion order. -/
def ENHANCED_VOICE_CONFIG_KEYS : List String :=
  ["agent_male_001", "agent_male_002", "agent_male_003",
   "agent_female_001", "agent_female_002", "agent_female_003",
   "user_male_001", "user_male_002", "user_male_003",
   "user_female_001", "user_female_002", "user_female_003"]

/-- Character-list test that `s` starts with `p`, modelling Python
`str.startswith`. -/
def startsWithChars (p l : List Char) : Bool :=
  match p, l with
  | [], _ => true
  | _ :: _, [] => false
  | a :: ps, b :: ls => a = b && startsWithChars ps ls

def strStartsWith (s p : String) : Bool := startsWithChars p.toList s.toList

/-- Python `random.choice(l)` with the random index supplied by the oracle draw
`d`; `none` models the `IndexError` Python raises on an empty sequence. -/
def randomChoice (l : List String) (d : ℕ) : Option String :=
  match l with
  | [] => none
  | _ :: _ => some (l.getD (d % l.length) "")

/-- Function `get_voice_for_agent` (src/generators/main_generator.py lines 190-199). -/
def get_voice_for_agent (agent_name : String) (d : ℕ) : Option String :=
  if get_gender_from_name agent_name = "male" then
    randomChoice (ENHANCED_VOICE_CONFIG_KEYS.filter (fun k => strStartsWith k "agent_male_")) d
  else
    randomChoice (ENHANCED_VOICE_CONFIG_KEYS.filter (fun k => strStartsWith k "agent_female_")) d

/-- Function `get_voice_for_user` (src/generators/main_generator.py lines 201-211)
called with `gender_preference=None`: one draw picks the gender, one the
voice. -/
def get_voice_for_user (genderDraw d : ℕ) : Option String :=
  if (["male", "female"].getD (genderDraw % 2) "") = "male" then
    randomChoice (ENHANCED_VOICE_CONFIG_KEYS.filter (fun k => strStartsWith k "user_male_")) d
  else
    randomChoice (ENHANCED_VOICE_CONFIG_KEYS.filter (fun k => strStartsWith k "user_female_")) d

/-! ## Speaker binding (SpeakerManager / TextOnlySpeakerManager) -/

/-- Mutable state of a speaker manager: the two memo dicts plus a stream of
random draws (`rng`, consumed from index `idx`). -/
structure BindState where
  cache : ℕ → Option (String × String)
  names : ℕ → Option String
  rng : ℕ → ℕ
  idx : ℕ

def cacheInsert {α : Type} (f : ℕ → Option α) (k : ℕ) (v : α) : ℕ → Option α :=
  fun k' => if k' = k then some v else f k'

/-- Method `SpeakerManager.assign_speakers` (src/generators/main_generator.py lines
469-493): on a cache miss draw an agent voice and a user voice and memoize
the pair; on a hit return the cached pair and ignore `agent_name`.  The
`(none, s)` branch models the `IndexError` `random.choice` would raise on an
empty pool (provably unreachable, see the C10 theorem). -/
def assign_speakers (s : BindState) (conversation_id : ℕ) (agent_name : String) :
    Option (String × String) × BindState :=
  match s.cache conversation_id with
  | some pair => (some pair, s)
  | none =>
    match get_voice_for_agent agent_name (s.rng s.idx),
          get_voice_for_user (s.rng (s.idx + 1)) (s.rng (s.idx + 2)) with
    | some a, some u =>
        (some (a, u),
         { cache := cacheInsert s.cache conversation_id (a, u),
           names := cacheInsert s.names conversation_id agent_name,
           rng := s.rng, idx := s.idx + 3 })
    | _, _ => (none, s)

/-- Python `f"...:03d"` formatting: decimal digits zero-padded to width 3. -/
def pad3 (n : ℕ) : String :=
  let s := toString n
  String.mk (List.replicate (3 - s.length) '0') ++ s

/-- Function `get_speaker_id_for_text` (src/generators/text_only_generator.py lines
64-72); for the user role the gender is one random draw. -/
def get_speaker_id_for_text (agent_name role : String) (conversation_id genderDraw : ℕ) :
    String :=
  if role = "agent" then
    "agent_" ++ get_gender_from_name agent_name ++ "_" ++ pad3 conversation_id
  else
    "user_" ++ (["male", "female"].getD (genderDraw % 2) "") ++ "_" ++ pad3 conversation_id

/-- Method `TextOnlySpeakerManager.assign_speakers`
(src/generators/text_only_generator.py lines 82-90). -/
def text_assign_speakers (s : BindState) (conversation_id : ℕ) (agent_name : String) :
    (String × String) × BindState :=
  match s.cache conversation_id with
  | some pair => (pair, s)
  | none =>
    let a := get_speaker_id_for_text agent_name "agent" conversation_id 0
    let u := get_speaker_id_for_text agent_name "user" conversation_id (s.rng s.idx)
    ((a, u),
     { cache := cacheInsert s.cache conversation_id (a, u),
       names := cacheInsert s.names conversation_id agent_name,
       rng := s.rng, idx := s.idx + 1 })

/-- A sequence of further `assign_speakers` calls (any ids, any personas),
threading the manager state. -/
def applyCalls (s : BindState) (calls : List (ℕ × String)) : BindState :=
  calls.foldl (fun st c => (assign_speakers st c.1 c.2).2) s

def applyCallsText (s : BindState) (calls : List (ℕ × String)) : BindState :=
  calls.foldl (fun st c => (text_assign_speakers st c.1 c.2).2) s

/-! ## TTS fallback chain (EnhancedVoiceManager, src/generators/main_generator.py) -/

/-- Result dict of the `_generate_*_audio` helpers: either a success record
(with `provider`/`quality`/metadata fields) or `{"success": False, "error": msg}`. -/
inductive AudioResult where
  | ok (provider quality : String) (duration : ℚ) (sample_rate channels file_size : ℕ)
  | err (msg : String)
deriving DecidableEq, Repr

def isSuccess : AudioResult → Bool
  | .ok _ _ _ _ _ _ => true
  | .err _ => false

def providerOf : AudioResult → Option String
  | .ok p _ _ _ _ _ => some p
  | .err _ => none

/-- Outcome of one provider HTTP round trip (the network is an oracle):
a 200 response producing a file of the given size, a non-200 status with a
body, or a raised exception. -/
inductive NetOutcome where
  | ok (file_size : ℕ)
  | httpError (code : ℕ) (body : String)
  | exn (msg : String)
deriving DecidableEq, Repr

/-- Method `EnhancedVoiceManager._generate_elevenlabs_audio`
(src/generators/main_generator.py lines 269-332).  On success the estimated
duration is `len(text) * 0.08` and the provider field is `"elevenlabs"`. -/
def generate_elevenlabs_audio (apiKey : Option String) (net : NetOutcome)
    (text : String) : AudioResult :=
  match apiKey with
  | none => .err "ElevenLabs API key not found"
  | some _ =>
    match net with
    | .ok fileSize =>
        .ok "elevenlabs" "very_high" (text.length * (8 / 100 : ℚ)) 16000 1 fileSize
    | .httpError code body => .err ("ElevenLabs API error: " ++ toString code ++ " - " ++ body)
    | .exn m => .err ("ElevenLabs error: " ++ m)

/-- Method `EnhancedVoiceManager._generate_google_cloud_audio`
(src/generators/main_generator.py lines 334-395).  On success the estimated
duration is `len(text) * 0.09` and the provider field is `"google_cloud"`. -/
def generate_google_cloud_audio (apiKey : Option String) (net : NetOutcome)
    (text : String) : AudioResult :=
  match apiKey with
  | none => .err "Google Cloud TTS API key not found"
  | some _ =>
    match net with
    | .ok fileSize =>
        .ok "google_cloud" "high" (text.length * (9 / 100 : ℚ)) 16000 1 fileSize
    | .httpError code body =>
        .err ("Google Cloud TTS error: " ++ toString code ++ " - " ++ body)
    | .exn m => .err ("Google Cloud TTS error: " ++ m)

/-- The hard-failure result returned when no high-quality provider produced
audio (src/generators/main_generator.py line 458). -/
def noProviderError : AudioResult :=
  .err "No high-quality TTS providers available (ElevenLabs quota exceeded, Google Cloud TTS failed)"

/-- The Google-Cloud leg of `EnhancedVoiceManager.generate_audio` (lines
448-458): attempted only when the provider is configured, otherwise (or on
failure) the chain ends with `noProviderError` — no low-quality fallback. -/
def googleFallback (status : String → Bool) (googleKey : Option String)
    (googleNet : NetOutcome) (text : String) : AudioResult :=
  if status "google_cloud" then
    let r := generate_google_cloud_audio googleKey googleNet text
    if isSuccess r then r else noProviderError
  else noProviderError

/-- Method `EnhancedVoiceManager.generate_audio` (src/generators/main_generator.py
lines 432-458).  `status` is `self.providers_status`; the per-provider voice
ids looked up from `ENHANCED_VOICE_CONFIGS` only shape the HTTP request and
are absorbed into the `NetOutcome` oracles. -/
def generate_audio (status : String → Bool) (elevenKey googleKey : Option String)
    (elevenNet googleNet : NetOutcome) (text : String) : AudioResult :=
  if status "elevenlabs" then
    let r := generate_elevenlabs_audio elevenKey elevenNet text
    if isSuccess r then r else googleFallback status googleKey googleNet text
  else googleFallback status googleKey googleNet text

/-! ## Orchestrator output collection (generate_* main loops) -/

/-- The retry loop of one conversation
(src/generators/main_generator.py lines 823-925,
src/generators/text_only_generator.py lines 334-402): `attempts i = some h`
means attempt `i` built the complete history `h` without aborting
(`generation_successful` stayed true and nothing raised); `none` means the
attempt aborted on a parse/audio failure or an exception.  The first
generated history that validates is accepted; all other attempts leave no
trace. -/
def firstAcceptedFrom (validate : List Turn → Bool) (attempts : ℕ → Option (List Turn)) :
    ℕ → ℕ → Option (List Turn)
  | _, 0 => none
  | i, fuel + 1 =>
    match attempts i with
    | some h => if validate h then some h else firstAcceptedFrom validate attempts (i + 1) fuel
    | none => firstAcceptedFrom validate attempts (i + 1) fuel

def acceptedHistory (maxRetries : ℕ) (validate : List Turn → Bool)
    (attempts : ℕ → Option (List Turn)) : Option (List Turn) :=
  firstAcceptedFrom validate attempts 0 maxRetries

/-- Value of `all_manifest_rows` at the end of a run: the concatenation, in
conversation order, of the accepted histories (`all_manifest_rows.extend(history)`
runs only inside the `generation_successful and validate_...` branch). -/
def runManifestRows (start numConvs maxRetries : ℕ) (validate : List Turn → Bool)
    (attemptsFor : ℕ → ℕ → Option (List Turn)) : List Turn :=
  ((List.range numConvs).map
    (fun k => (acceptedHistory maxRetries validate (attemptsFor (start + k))).getD [])).flatten

/-- The ASR view written to `*_asr_*.jsonl`: `asr_data = all_manifest_rows`. -/
def asrData (rows : List Turn) : List Turn := rows

/-- The TTS view written to `*_tts_*.jsonl`: agent turns only. -/
def ttsData (rows : List Turn) : List Turn := rows.filter (fun r => r.role == "agent")

/-! ## clean_and_parse_json (src/generators/main_generator.py lines 518-532,
identical copy in text_only_generator.py lines 115-129)

The function runs `re.search` twice over the response text:
  1. the fenced pattern with a lazy group and DOTALL;
  2. the greedy fallback `\x7b.*\x7d` with DOTALL;
then `json_str = match.group(1) if (the fence literal occurs in
match.group(0)) else match.group(0)`, and finally `json.loads` with only
`json.JSONDecodeError` caught.  Both regexes are modelled exactly on
character lists (Python's leftmost-match search, greedy `\s*` runs followed
by non-whitespace literals, lazy `.*?` taking the shortest extension). -/

def lbrace : Char := '\x7b'

def rbrace : Char := '\x7d'

/-- The three-backtick fence delimiter. -/
def fenceTicks : List Char := ['\x60', '\x60', '\x60']

/-- The literal whose containment the code tests with the Python `in` operator. -/
def fenceJson : List Char := fenceTicks ++ ['j', 's', 'o', 'n']

/-- Python regex `\s` over ASCII (the prompts/responses relevant here):
space, tab, newline, carriage return, vertical tab, form feed. -/
def isPyWS (c : Char) : Bool :=
  c = ' ' || c = '\t' || c = '\n' || c = '\r' || c = '\x0b' || c = '\x0c'

def dropPyWS (l : List Char) : List Char := l.dropWhile isPyWS

/-- Python substring containment (`pat in s`). -/
def containsSub (pat : List Char) : List Char → Bool
  | [] => pat.isEmpty
  | c :: rest => startsWithChars pat (c :: rest) || containsSub pat rest

/-- The lazy `.*?` of the fenced pattern: take the shortest run of
characters whose following character is the closing brace followed (after a
greedy `\s*`) by the closing fence; returns the run (without the brace). -/
def fencedContent : List Char → Option (List Char)
  | [] => none
  | c :: rest =>
    if c = rbrace && startsWithChars fenceTicks (dropPyWS rest) then some []
    else (fencedContent rest).map (fun t => c :: t)

/-- One anchored attempt of the fenced pattern at the start of `l`; on
success returns capture group 1, the brace-delimited block.  The greedy
`\s*` before the opening brace deterministically swallows the maximal
whitespace run because the following literal is not whitespace. -/
def matchFencedAt (l : List Char) : Option (List Char) :=
  if startsWithChars fenceJson l then
    match dropPyWS (l.drop fenceJson.length) with
    | c :: rest =>
      if c = lbrace then (fencedContent rest).map (fun t => lbrace :: t ++ [rbrace])
      else none
    | [] => none
  else none

/-- Search (`re.search`) of the fenced pattern: the leftmost start position at which
the anchored attempt succeeds. -/
def fencedSearch : List Char → Option (List Char)
  | [] => none
  | c :: rest =>
    match matchFencedAt (c :: rest) with
    | some g => some g
    | none => fencedSearch rest

/-- Longest prefix of `l` ending at the last closing brace of `l` (`none`
if `l` has no closing brace). -/
def upToLastClose : List Char → Option (List Char)
  | [] => none
  | c :: rest =>
    match upToLastClose rest with
    | some t => some (c :: t)
    | none => if c = rbrace then some [c] else none

/-- Search (`re.search`) of the greedy DOTALL pattern `\x7b.*\x7d`: the match spans
from the first opening brace to the last closing brace after it (no match
when no closing brace follows the first opening brace). -/
def greedySearch (l : List Char) : Option (List Char) :=
  match l.dropWhile (fun c => c ≠ lbrace) with
  | [] => none
  | c :: rest => (upToLastClose rest).map (fun t => c :: t)

/-! ### A model of `json.loads`

Values keep the shape Python produces; number lexemes are kept verbatim.
Approximations that no claim touches: duplicate object keys are kept (Python
keeps the last), and `\uXXXX` escapes for lone surrogates collapse to the
replacement behaviour of `Char.ofNat`. -/

inductive JsonValue where
  | null
  | bool (b : Bool)
  | num (lexeme : List Char)
  | str (chars : List Char)
  | arr (elems : List JsonValue)
  | obj (fields : List (List Char × JsonValue))

/-- JSON inter-token whitespace accepted by `json.loads`. -/
def isJsonWS (c : Char) : Bool := c = ' ' || c = '\t' || c = '\n' || c = '\r'

def dropJsonWS (l : List Char) : List Char := l.dropWhile isJsonWS

def hexVal (c : Char) : Option ℕ :=
  if '0' ≤ c ∧ c ≤ '9' then some (c.toNat - '0'.toNat)
  else if 'a' ≤ c ∧ c ≤ 'f' then some (c.toNat - 'a'.toNat + 10)
  else if 'A' ≤ c ∧ c ≤ 'F' then some (c.toNat - 'A'.toNat + 10)
  else none

def escChar (c : Char) : Option Char :=
  if c = '"' then some '"'
  else if c = '\\' then some '\\'
  else if c = '/' then some '/'
  else if c = 'b' then some '\x08'
  else if c = 'f' then some '\x0c'
  else if c = 'n' then some '\n'
  else if c = 'r' then some '\r'
  else if c = 't' then some '\t'
  else none

/-- Body of a JSON string after its opening quote: returns the decoded
characters and the input remaining after the closing quote.  Raw control
characters are rejected (strict mode). -/
def parseStringRest : List Char → Option (List Char × List Char)
  | [] => none
  | '"' :: rest => some ([], rest)
  | '\\' :: 'u' :: h1 :: h2 :: h3 :: h4 :: rest =>
    match hexVal h1, hexVal h2, hexVal h3, hexVal h4 with
    | some a, some b, some c, some d =>
      (parseStringRest rest).map
        (fun p => (Char.ofNat (((a * 16 + b) * 16 + c) * 16 + d) :: p.1, p.2))
    | _, _, _, _ => none
  | '\\' :: e :: rest =>
    match escChar e with
    | some c => (parseStringRest rest).map (fun p => (c :: p.1, p.2))
    | none => none
  | [_] => none
  | c :: rest =>
    if c.toNat < 32 then none
    else (parseStringRest rest).map (fun p => (c :: p.1, p.2))

def spanDigits (l : List Char) : List Char × List Char := l.span Char.isDigit

/-- Optional fraction part `.digits` (maximal munch; a dot not followed by a
digit is left unconsumed, as in Python's NUMBER_RE). -/
def parseFrac (lex : List Char) (l : List Char) : List Char × List Char :=
  match l with
  | p :: d :: rest =>
    if p = '.' && d.isDigit then
      let s := spanDigits rest
      (lex ++ p :: d :: s.1, s.2)
    else (lex, l)
  | _ => (lex, l)

/-- Optional exponent part `[eE][+-]?digits` (maximal munch). -/
def parseExp (lex : List Char) (l : List Char) : List Char × List Char :=
  match l with
  | e :: c :: rest =>
    if e = 'e' || e = 'E' then
      if c = '+' || c = '-' then
        match rest with
        | d :: r2 =>
          if d.isDigit then
            let s := spanDigits r2
            (lex ++ e :: c :: d :: s.1, s.2)
          else (lex, l)
        | [] => (lex, l)
      else if c.isDigit then
        let s := spanDigits rest
        (lex ++ e :: c :: s.1, s.2)
      else (lex, l)
    else (lex, l)
  | _ => (lex, l)

/-- Unsigned number: `0` or a nonzero digit followed by digits, then
optional fraction and exponent (Python json's NUMBER_RE). -/
def parseNumCore (l : List Char) : Option (List Char × List Char) :=
  match l with
  | '0' :: rest =>
    let f := parseFrac ['0'] rest
    some (parseExp f.1 f.2)
  | c :: rest =>
    if c.isDigit then
      let s := spanDigits rest
      let f := parseFrac (c :: s.1) s.2
      some (parseExp f.1 f.2)
    else none
  | [] => none

def parseNumberLex (l : List Char) : Option (List Char × List Char) :=
  match l with
  | '-' :: rest => (parseNumCore rest).map (fun p => ('-' :: p.1, p.2))
  | _ => parseNumCore l

mutual

/-- One JSON value (with leading whitespace); fuel bounds the recursion and
`l.length + 1` always suffices since every recursive call first consumes at
least one character. -/
def parseValue : ℕ → List Char → Option (JsonValue × List Char)
  | 0, _ => none
  | fuel + 1, l =>
    match dropJsonWS l with
    | [] => none
    | c :: rest =>
      if c = '"' then (parseStringRest rest).map (fun p => (.str p.1, p.2))
      else if c = lbrace then parseObjBody fuel rest
      else if c = '[' then parseArrBody fuel rest
      else if startsWithChars ['t', 'r', 'u', 'e'] (c :: rest) then
        some (.bool true, (c :: rest).drop 4)
      else if startsWithChars ['f', 'a', 'l', 's', 'e'] (c :: rest) then
        some (.bool false, (c :: rest).drop 5)
      else if startsWithChars ['n', 'u', 'l', 'l'] (c :: rest) then
        some (.null, (c :: rest).drop 4)
      else (parseNumberLex (c :: rest)).map (fun p => (.num p.1, p.2))

/-- Object body after the opening brace. -/
def parseObjBody : ℕ → List Char → Option (JsonValue × List Char)
  | 0, _ => none
  | fuel + 1, l =>
    match dropJsonWS l with
    | [] => none
    | c :: rest =>
      if c = rbrace then some (.obj [], rest)
      else if c = '"' then
        match parseStringRest rest with
        | none => none
        | some (key, r1) =>
          match dropJsonWS r1 with
          | ':' :: r2 =>
            match parseValue fuel r2 with
            | none => none
            | some (v, r3) => parseObjRest fuel [(key, v)] r3
          | _ => none
      else none

/-- Remaining members of an object after the first. -/
def parseObjRest : ℕ → List (List Char × JsonValue) → List Char →
    Option (JsonValue × List Char)
  | 0, _, _ => none
  | fuel + 1, acc, l =>
    match dropJsonWS l with
    | [] => none
    | c :: rest =>
      if c = rbrace then some (.obj acc.reverse, rest)
      else if c = ',' then
        match dropJsonWS rest with
        | '"' :: r1 =>
          match parseStringRest r1 with
          | none => none
          | some (key, r2) =>
            match dropJsonWS r2 with
            | ':' :: r3 =>
              match parseValue fuel r3 with
              | none => none
              | some (v, r4) => parseObjRest fuel ((key, v) :: acc) r4
            | _ => none
        | _ => none
      else none

/-- Array body after the opening bracket. -/
def parseArrBody : ℕ → List Char → Option (JsonValue × List Char)
  | 0, _ => none
  | fuel + 1, l =>
    match dropJsonWS l with
    | [] => none
    | c :: rest =>
      if c = ']' then some (.arr [], rest)
      else
        match parseValue fuel (c :: rest) with
        | none => none
        | some (v, r1) => parseArrRest fuel [v] r1

/-- Remaining elements of an array after the first. -/
def parseArrRest : ℕ → List JsonValue → List Char → Option (JsonValue × List Char)
  | 0, _, _ => none
  | fuel + 1, acc, l =>
    match dropJsonWS l with
    | [] => none
    | c :: rest =>
      if c = ']' then some (.arr acc.reverse, rest)
      else if c = ',' then
        match parseValue fuel rest with
        | none => none
        | some (v, r1) => parseArrRest fuel (v :: acc) r1
      else none

end

/-- Model of `json.loads`: one JSON document, with nothing but whitespace after it. -/
def json_loads (l : List Char) : Option JsonValue :=
  match parseValue (l.length + 1) l with
  | some (v, rest) => if (dropJsonWS rest).isEmpty then some v else none
  | none => none

/-- What one call of `clean_and_parse_json` does: return a parsed dict
(`ok`), return `None` (`failure`), or let an uncaught exception escape
(`raised`) — only `json.JSONDecodeError` is caught. -/
inductive ParseOutcome where
  | ok (value : JsonValue)
  | failure
  | raised (msg : String)

/-- Function `clean_and_parse_json`.  When the fenced pattern matched, its group(0)
starts with the fence literal, so the containment test is true and group(1)
is used.  When only the greedy pattern matched, group(0) is the brace span;
if the fence literal occurs inside it the code calls `match.group(1)` on a
pattern that has no groups, which raises an uncaught `IndexError`. -/
def clean_and_parse_json (l : List Char) : ParseOutcome :=
  match fencedSearch l with
  | some group1 =>
    match json_loads group1 with
    | some v => .ok v
    | none => .failure
  | none =>
    match greedySearch l with
    | none => .failure
    | some group0 =>
      if containsSub fenceJson group0 then .raised "IndexError: no such group"
      else
        match json_loads group0 with
        | some v => .ok v
        | none => .failure

/-- Behaviour of the un-fenced path as the specification describes the
code's actual greedy fallback: parse the whole first-brace-to-last-brace
span, else `None`.  Used to state the amended C9. -/
def greedySpanBehavior (l : List Char) : ParseOutcome :=
  match greedySearch l with
  | none => .failure
  | some g =>
    match json_loads g with
    | some v => .ok v
    | none => .failure

/-! ## Concrete data used by witnesses and counterexamples -/

/-- A complete turn as the audio pipeline builds it (26-character
transcript, within every configured bound). -/
def mkTurn (cid : ℕ) (role intent : String) : Turn :=
  { conversation_id := cid, transcript := "abcdefghijklmnopqrstuvwxyz",
    speaker_id := "spk", role := role, intent := intent,
    audio_filepath := some "a.wav", audio_duration := some 1 }

/-- A 6-turn conversation with the structure both validators accept. -/
def sixTurnHist : List Turn :=
  [mkTurn 1 "agent" "greeting", mkTurn 1 "user" "complaint",
   mkTurn 1 "agent" "info_request", mkTurn 1 "user" "info_provide",
   mkTurn 1 "agent" "closing", mkTurn 1 "user" "thanks"]

/-- The specification's 4-turn scenario
[agent/greeting, user/complaint, agent/closing, user/thanks]:
alternating, correct terminal pattern, transcripts within bounds, but only
4 turns. -/
def fourTurnHist : List Turn :=
  [mkTurn 100 "agent" "greeting", mkTurn 100 "user" "complaint",
   mkTurn 100 "agent" "closing", mkTurn 100 "user" "thanks"]

/-- Attempt oracle for the C4 witness: conversation 100 always generates
the (invalid) 4-turn history, every other conversation always aborts. -/
def c4AttemptsFor : ℕ → ℕ → Option (List Turn) :=
  fun c _ => if c = 100 then some fourTurnHist else none

/-- A fresh speaker manager: empty memo dicts, all random draws 0. -/
def emptyBindState : BindState :=
  { cache := fun _ => none, names := fun _ => none, rng := fun _ => 0, idx := 0 }

/-! # Theorems -/

/-! ## C1: structural invariants of accepted conversations -/

theorem checkTurnsFrom_spec (check : ℕ → Turn → Bool) :
    ∀ (h : List Turn) (k : ℕ), checkTurnsFrom check k h = true →
      ∀ i, i < h.length → check (k + i) (h.getD i dummyTurn) = true := by
  intro h
  induction h with
  | nil => intro k _ i hi; simp at hi
  | cons t rest ih =>
    intro k hk i hi
    rw [checkTurnsFrom, Bool.and_eq_true] at hk
    cases i with
    | zero => simpa using hk.1
    | succ j =>
      have := ih (k + 1) hk.2 j (by simpa using hi)
      simpa [Nat.add_assoc, Nat.add_comm 1 j] using this

theorem convStructOk_of_common (history : List Turn) (check : ℕ → Turn → Bool)
    (hrole : ∀ i t, check i t = true → t.role = expectedRole i)
    (hv : validate_common check history = true) : ConvStructOk history := by
  rw [validate_common] at hv
  simp only [Bool.and_eq_true] at hv
  obtain ⟨⟨⟨⟨hA, hB⟩, hC⟩, hD⟩, hE⟩ := hv
  have hmin : TURNS_PER_DIALOG_MIN ≤ history.length := of_decide_eq_true hA
  have hmax : history.length ≤ TURNS_PER_DIALOG_MAX := of_decide_eq_true hB
  have hroles : ∀ i, i < history.length → (history.getD i dummyTurn).role = expectedRole i := by
    intro i hi
    have := checkTurnsFrom_spec check history 0 hC i hi
    rw [Nat.zero_add] at this
    exact hrole i _ this
  have hpos : 0 < history.length := by
    have : (6 : ℕ) ≤ history.length := hmin
    omega
  refine ⟨hroles, ?_, hmin, hmax, ?_, ?_⟩
  · -- evenness from alternation plus the final user role
    cases hm : history.getLast? with
    | none => rw [hm] at hE; simp at hE
    | some t =>
      rw [hm] at hE
      simp only [Bool.and_eq_true, beq_iff_eq, Bool.or_eq_true] at hE
      by_contra hodd
      have h1 : history.length % 2 = 1 := Nat.mod_two_eq_zero_or_one _ |>.resolve_left hodd
      have hlt : history.length - 1 < history.length := by omega
      have hrole_last := hroles (history.length - 1) hlt
      have hget : history.getD (history.length - 1) dummyTurn = t := by
        have : history.getLast? = history.get? (history.length - 1) := List.getLast?_eq_get? history
        rw [hm] at this
        have hgd : history.getD (history.length - 1) dummyTurn =
            (history.get? (history.length - 1)).getD dummyTurn := rfl
        rw [hgd, ← this]
        rfl
      rw [hget] at hrole_last
      rw [expectedRole] at hrole_last
      have hsucc : history.length - 1 + 1 = history.length := by omega
      rw [hsucc, h1] at hrole_last
      simp at hrole_last
      rw [hrole_last] at hE
      simpa using hE.1
  · cases hm : history.get? (history.length - 2) with
    | none => rw [hm] at hD; simp at hD
    | some t =>
      rw [hm] at hD
      simp only [Bool.and_eq_true, beq_iff_eq] at hD
      exact ⟨t, rfl, hD.1, hD.2⟩
  · cases hm : history.getLast? with
    | none => rw [hm] at hE; simp at hE
    | some t =>
      rw [hm] at hE
      simp only [Bool.and_eq_true, beq_iff_eq, Bool.or_eq_true] at hE
      exact ⟨t, rfl, hE.1, hE.2⟩

/-- C1: every turn list accepted by the conversation validator (text-only
or audio-enabled, with TURNS_PER_DIALOG_MIN = 6 and TURNS_PER_DIALOG_MAX =
16) has strictly alternating roles starting with agent, an even length
within [6, 16], an agent/"closing" second-to-last turn, and a
user/"thanks"-or-"confirmation" last turn; the evenness follows from
alternation plus the required user role of the final turn. -/
theorem accepted_conversation_invariants (history : List Turn) :
    (validate_text_conversation history = true → ConvStructOk history) ∧
    (∀ fsExists, validate_conversation_with_audio history fsExists = true →
      ConvStructOk history) := by
  constructor
  · intro hv
    refine convStructOk_of_common history textTurnOk ?_ hv
    intro i t ht
    rw [textTurnOk, Bool.and_eq_true] at ht
    exact beq_iff_eq.mp ht.1
  · intro fsExists hv
    refine convStructOk_of_common history (audioTurnOk fsExists) ?_ hv
    intro i t ht
    rw [audioTurnOk] at ht
    simp only [Bool.and_eq_true] at ht
    exact beq_iff_eq.mp ht.1.1.1

/-- Witness for C1 at a concrete accepted 6-turn conversation. -/
theorem accepted_conversation_invariants_witness : ConvStructOk sixTurnHist :=
  (accepted_conversation_invariants sixTurnHist).2 (fun _ => true) (by decide)

/-! ## C7: purity of the validators -/

/-- C7 counterexample: the audio-enabled validator is not a function of the
turn list alone — on the same history, its result flips with the state of
the filesystem (`Path.exists` on the turns' audio files). -/
theorem audio_validator_depends_on_fs :
    validate_conversation_with_audio sixTurnHist (fun _ => true) ≠
      validate_conversation_with_audio sixTurnHist (fun _ => false) := by decide

/-- C7 amended: the text-only validator is a pure function of the turn list
alone, and the audio-enabled validator is deterministic given the turn list
and the filesystem — its result depends on the filesystem only through the
existence of the turns' own `audio_filepath`s: any two filesystem states
agreeing there validate identically. -/
theorem validator_determinism (history : List Turn) (fs₁ fs₂ : String → Bool)
    (hagree : ∀ t ∈ history, fs₁ (t.audio_filepath.getD "") = fs₂ (t.audio_filepath.getD "")) :
    validate_conversation_with_audio history fs₁ = validate_conversation_with_audio history fs₂ := by
  have hcheck : ∀ (h : List Turn), (∀ t ∈ h, fs₁ (t.audio_filepath.getD "") =
      fs₂ (t.audio_filepath.getD "")) → ∀ k,
      checkTurnsFrom (audioTurnOk fs₁) k h = checkTurnsFrom (audioTurnOk fs₂) k h := by
    intro h
    induction h with
    | nil => intro _ k; rfl
    | cons t rest ih =>
      intro ha k
      rw [checkTurnsFrom, checkTurnsFrom]
      have ht : audioTurnOk fs₁ k t = audioTurnOk fs₂ k t := by
        rw [audioTurnOk, audioTurnOk, ha t (List.mem_cons_self t rest)]
      rw [ht, ih (fun u hu => ha u (List.mem_cons_of_mem t hu)) (k + 1)]
  rw [validate_conversation_with_audio, validate_conversation_with_audio,
      validate_common, validate_common, hcheck history hagree 0]

/-- Witness for the amended C7: two extensionally different filesystem
states that agree on the history's audio paths give the same verdict. -/
theorem validator_determinism_witness :
    validate_conversation_with_audio sixTurnHist (fun _ => true) =
      validate_conversation_with_audio sixTurnHist (fun p => p == "a.wav") :=
  validator_determinism sixTurnHist (fun _ => true) (fun p => p == "a.wav") (by decide)

/-! ## C8: the 4-turn scenario under the configured bounds -/

/-- C8 counterexample: the specification's 4-turn conversation
[agent/greeting, user/complaint, agent/closing, user/thanks] is rejected,
not accepted, because 4 is below TURNS_PER_DIALOG_MIN = 6. -/
theorem four_turn_scenario_rejected : validate_text_conversation fourTurnHist = false := by
  decide

/-- C8 amended: the 4-turn pattern is rejected (turn count below the
configured minimum of 6), while the same pattern carried by a 6-turn
conversation with the identical terminal intents is accepted. -/
theorem four_turn_rejected_six_turn_accepted :
    validate_text_conversation fourTurnHist = false ∧
    validate_text_conversation sixTurnHist = true := by decide

/-! ## C2: the scenario distribution -/

theorem sum_toNat_floor_le (N : ℕ) (ws : List (String × ℚ)) (hw : ∀ p ∈ ws, 0 ≤ p.2) :
    (ws.map (fun p => Int.toNat ⌊(N : ℚ) * p.2⌋)).sum ≤
      Int.toNat ⌊(N : ℚ) * (ws.map Prod.snd).sum⌋ := by
  induction ws with
  | nil => simp
  | cons p ws ih =>
    simp only [List.map_cons, List.sum_cons]
    have hp : 0 ≤ p.2 := hw p (List.mem_cons_self p ws)
    have hws : ∀ q ∈ ws, 0 ≤ q.2 := fun q hq => hw q (List.mem_cons_of_mem p hq)
    have hsum : (0 : ℚ) ≤ (ws.map Prod.snd).sum := by
      refine List.sum_nonneg ?_
      intro x hx
      obtain ⟨q, hq, rfl⟩ := List.mem_map.mp hx
      exact hws q hq
    have hN : (0 : ℚ) ≤ (N : ℚ) := Nat.cast_nonneg N
    have h₁ : (0 : ℤ) ≤ ⌊(N : ℚ) * p.2⌋ := Int.floor_nonneg.mpr (mul_nonneg hN hp)
    have h₂ : (0 : ℤ) ≤ ⌊(N : ℚ) * (ws.map Prod.snd).sum⌋ :=
      Int.floor_nonneg.mpr (mul_nonneg hN hsum)
    calc Int.toNat ⌊(N : ℚ) * p.2⌋ + (ws.map (fun p => Int.toNat ⌊(N : ℚ) * p.2⌋)).sum
        ≤ Int.toNat ⌊(N : ℚ) * p.2⌋ + Int.toNat ⌊(N : ℚ) * (ws.map Prod.snd).sum⌋ :=
          Nat.add_le_add_left (ih hws) _
      _ = Int.toNat (⌊(N : ℚ) * p.2⌋ + ⌊(N : ℚ) * (ws.map Prod.snd).sum⌋) :=
          (Int.toNat_add h₁ h₂).symm
      _ ≤ Int.toNat ⌊(N : ℚ) * p.2 + (N : ℚ) * (ws.map Prod.snd).sum⌋ :=
          Int.toNat_le_toNat (Int.le_floor_add _ _)
      _ = Int.toNat ⌊(N : ℚ) * (p.2 + (ws.map Prod.snd).sum)⌋ := by rw [mul_add]

theorem scenarioBase_length_le (N : ℕ) (ws : List (String × ℚ))
    (hw : ∀ p ∈ ws, 0 ≤ p.2) (hsum : (ws.map Prod.snd).sum = 1) :
    (scenarioBase N ws).length ≤ N := by
  rw [scenarioBase, List.length_flatten, List.map_map]
  have h := sum_toNat_floor_le N ws hw
  rw [hsum, mul_one] at h
  have hfl : ⌊(N : ℚ)⌋ = (N : ℤ) := Int.floor_natCast N
  rw [hfl] at h
  simpa [Function.comp_def] using h

theorem count_scenarioBase (N : ℕ) (ws : List (String × ℚ)) (p : String × ℚ) (hp : p ∈ ws) :
    Int.toNat ⌊(N : ℚ) * p.2⌋ ≤ (scenarioBase N ws).count p.1 := by
  rw [scenarioBase, List.count_flatten, List.map_map]
  have hmem : List.count p.1 (List.replicate (Int.toNat ⌊(N : ℚ) * p.2⌋) p.1) ∈
      ws.map (List.count p.1 ∘ fun q => List.replicate (Int.toNat ⌊(N : ℚ) * q.2⌋) q.1) :=
    List.mem_map_of_mem _ hp
  have := List.le_sum_of_mem hmem
  simpa [List.count_replicate_self] using this

/-- C2: for every N and every non-negative weight map summing exactly to 1,
`get_scenario_distribution` (with any back-fill draws and any permutation
in place of `random.shuffle`) returns exactly N labels, and each label
occurs at least `⌊N * weight⌋` times. -/
theorem scenario_distribution_exact (N : ℕ) (weights : List (String × ℚ))
    (draws : ℕ → String) (shuffle : List String → List String)
    (hshuffle : (shuffle (fillScenarios N (scenarioBase N weights) draws)).Perm
      (fillScenarios N (scenarioBase N weights) draws))
    (hw : ∀ p ∈ weights, 0 ≤ p.2)
    (hsum : (weights.map Prod.snd).sum = 1) :
    (get_scenario_distribution N weights draws shuffle).length = N ∧
    ∀ p ∈ weights, Int.toNat ⌊(N : ℚ) * p.2⌋ ≤
      (get_scenario_distribution N weights draws shuffle).count p.1 := by
  have hbase := scenarioBase_length_le N weights hw hsum
  have hfill : (fillScenarios N (scenarioBase N weights) draws).length = N := by
    rw [fillScenarios, List.length_append, List.length_map, List.length_range]
    omega
  have hlen : (shuffle (fillScenarios N (scenarioBase N weights) draws)).length = N :=
    hshuffle.length_eq.trans hfill
  have htake : (shuffle (fillScenarios N (scenarioBase N weights) draws)).take N =
      shuffle (fillScenarios N (scenarioBase N weights) draws) :=
    List.take_all_of_le (le_of_eq hlen)
  constructor
  · rw [get_scenario_distribution, htake, hlen]
  · intro p hp
    rw [get_scenario_distribution, htake, hshuffle.count_eq p.1]
    have hfillc : (scenarioBase N weights).count p.1 ≤
        (fillScenarios N (scenarioBase N weights) draws).count p.1 := by
      rw [fillScenarios, List.count_append]
      exact Nat.le_add_right _ _
    exact le_trans (count_scenarioBase N weights p hp) hfillc

/-- Witness for C2: the specification's own scenario, N = 10 with weights
one half / one half, back-fill draws all "A", identity shuffle. -/
theorem scenario_distribution_exact_witness :
    (get_scenario_distribution 10 [("A", 1/2), ("B", 1/2)] (fun _ => "A") id).length = 10 ∧
    ∀ p ∈ [("A", (1 : ℚ)/2), ("B", (1 : ℚ)/2)], Int.toNat ⌊(10 : ℚ) * p.2⌋ ≤
      (get_scenario_distribution 10 [("A", 1/2), ("B", 1/2)] (fun _ => "A") id).count p.1 :=
  scenario_distribution_exact 10 [("A", 1/2), ("B", 1/2)] (fun _ => "A") id
    (List.Perm.refl _)
    (by intro p hp; fin_cases hp <;> norm_num)
    (by norm_num)

/-! ## C4: all-or-nothing persistence -/

theorem firstAcceptedFrom_sound (validate : List Turn → Bool)
    (attempts : ℕ → Option (List Turn)) :
    ∀ fuel i h, firstAcceptedFrom validate attempts i fuel = some h →
      ∃ j, attempts j = some h ∧ validate h = true := by
  intro fuel
  induction fuel with
  | zero => intro i h hx; simp [firstAcceptedFrom] at hx
  | succ fuel ih =>
    intro i h hx
    rw [firstAcceptedFrom] at hx
    cases ha : attempts i with
    | some h' =>
      rw [ha] at hx
      dsimp only at hx
      by_cases hv : validate h' = true
      · rw [if_pos hv] at hx
        obtain rfl : h' = h := by injection hx
        exact ⟨i, ha, hv⟩
      · rw [if_neg hv] at hx
        exact ih (i + 1) h hx
    | none =>
      rw [ha] at hx
      dsimp only at hx
      exact ih (i + 1) h hx

/-- C4: if no attempt of a conversation passes validation (in particular
when the retry budget is exhausted), then no turn of that conversation
appears in the full manifest, the ASR view, or the TTS view: only
validated histories are ever appended to `all_manifest_rows`, from which
all three files are written. -/
theorem rejected_conversation_absent (start numConvs maxRetries : ℕ)
    (validate : List Turn → Bool) (attemptsFor : ℕ → ℕ → Option (List Turn)) (cid : ℕ)
    (hIds : ∀ c i h t, attemptsFor c i = some h → t ∈ h → t.conversation_id = c)
    (hFail : ∀ i h, attemptsFor cid i = some h → validate h = false) :
    (∀ t ∈ runManifestRows start numConvs maxRetries validate attemptsFor,
      t.conversation_id ≠ cid) ∧
    (∀ t ∈ asrData (runManifestRows start numConvs maxRetries validate attemptsFor),
      t.conversation_id ≠ cid) ∧
    (∀ t ∈ ttsData (runManifestRows start numConvs maxRetries validate attemptsFor),
      t.conversation_id ≠ cid) := by
  have hmain : ∀ t ∈ runManifestRows start numConvs maxRetries validate attemptsFor,
      t.conversation_id ≠ cid := by
    intro t ht heq
    rw [runManifestRows, List.mem_flatten] at ht
    obtain ⟨chunk, hchunk, htc⟩ := ht
    rw [List.mem_map] at hchunk
    obtain ⟨k, _, rfl⟩ := hchunk
    cases hacc : acceptedHistory maxRetries validate (attemptsFor (start + k)) with
    | none => rw [hacc] at htc; simp at htc
    | some hH =>
      rw [hacc] at htc
      simp only [Option.getD_some] at htc
      obtain ⟨j, hj, hvalid⟩ :=
        firstAcceptedFrom_sound validate (attemptsFor (start + k)) maxRetries 0 hH hacc
      have hid := hIds (start + k) j hH t hj htc
      rw [heq] at hid
      rw [hid] at hFail
      have := hFail j hH hj
      rw [this] at hvalid
      exact Bool.false_ne_true hvalid
  exact ⟨hmain, hmain, fun t ht => hmain t (List.mem_of_mem_filter ht)⟩

/-- Witness for C4: a run of one conversation (id 100) whose every attempt
produces the invalid 4-turn history; its id appears in none of the three
output streams. -/
theorem rejected_conversation_absent_witness :
    (∀ t ∈ runManifestRows 100 1 3 validate_text_conversation c4AttemptsFor,
      t.conversation_id ≠ 100) ∧
    (∀ t ∈ asrData (runManifestRows 100 1 3 validate_text_conversation c4AttemptsFor),
      t.conversation_id ≠ 100) ∧
    (∀ t ∈ ttsData (runManifestRows 100 1 3 validate_text_conversation c4AttemptsFor),
      t.conversation_id ≠ 100) := by
  refine rejected_conversation_absent 100 1 3 validate_text_conversation c4AttemptsFor 100
    ?_ ?_
  · intro c i h t hc ht
    by_cases h100 : c = 100
    · subst h100
      rw [c4AttemptsFor] at hc
      simp only [if_true, eq_self_iff_true, Option.some_inj] at hc
      subst hc
      have hall : ∀ u ∈ fourTurnHist, u.conversation_id = 100 := by decide
      exact hall t ht
    · rw [c4AttemptsFor] at hc
      simp [h100] at hc
  · intro i h hc
    rw [c4AttemptsFor] at hc
    simp only [if_true, eq_self_iff_true, Option.some_inj] at hc
    subst hc
    decide

/-! ## C5: speaker binding stability -/

theorem assign_speakers_hit (s : BindState) (cid : ℕ) (n : String) (p : String × String)
    (h : s.cache cid = some p) :
    (assign_speakers s cid n).1 = some p ∧ (assign_speakers s cid n).2 = s := by
  rw [assign_speakers, h]
  exact ⟨rfl, rfl⟩

theorem assign_speakers_sets (s : BindState) (cid : ℕ) (n : String) (p : String × String)
    (h : (assign_speakers s cid n).1 = some p) :
    ((assign_speakers s cid n).2).cache cid = some p := by
  rcases hc : s.cache cid with _ | q
  · rcases hva : get_voice_for_agent n (s.rng s.idx) with _ | a
    · simp [assign_speakers, hc, hva] at h
    · rcases hvu : get_voice_for_user (s.rng (s.idx + 1)) (s.rng (s.idx + 2)) with _ | u
      · simp [assign_speakers, hc, hva, hvu] at h
      · simp only [assign_speakers, hc, hva, hvu, Option.some_inj] at h
        simp [assign_speakers, hc, hva, hvu, cacheInsert, ← h]
  · have hh := assign_speakers_hit s cid n q hc
    rw [hh.1] at h
    rw [hh.2, hc]
    exact h

theorem assign_speakers_preserves (s : BindState) (cid cid' : ℕ) (n : String)
    (p : String × String) (h : s.cache cid = some p) :
    ((assign_speakers s cid' n).2).cache cid = some p := by
  rcases hc : s.cache cid' with _ | q
  · have hne : cid ≠ cid' := by
      intro e
      rw [e, hc] at h
      exact Option.noConfusion h
    rcases hva : get_voice_for_agent n (s.rng s.idx) with _ | a
    · simpa [assign_speakers, hc, hva] using h
    · rcases hvu : get_voice_for_user (s.rng (s.idx + 1)) (s.rng (s.idx + 2)) with _ | u
      · simpa [assign_speakers, hc, hva, hvu] using h
      · simpa [assign_speakers, hc, hva, hvu, cacheInsert, hne] using h
  · rw [(assign_speakers_hit s cid' n q hc).2]
    exact h

theorem applyCalls_preserves (calls : List (ℕ × String)) :
    ∀ (s : BindState) (cid : ℕ) (p : String × String), s.cache cid = some p →
      (applyCalls s calls).cache cid = some p := by
  induction calls with
  | nil => intro s cid p h; simpa [applyCalls] using h
  | cons c rest ih =>
    intro s cid p h
    rw [applyCalls, List.foldl_cons]
    exact ih _ cid p (assign_speakers_preserves s cid c.1 c.2 p h)

theorem text_assign_sets (s : BindState) (cid : ℕ) (n : String) :
    ((text_assign_speakers s cid n).2).cache cid = some ((text_assign_speakers s cid n).1) := by
  rcases hc : s.cache cid with _ | q
  · simp [text_assign_speakers, hc, cacheInsert]
  · simp [text_assign_speakers, hc]

theorem text_assign_hit (s : BindState) (cid : ℕ) (n : String) (p : String × String)
    (h : s.cache cid = some p) : (text_assign_speakers s cid n).1 = p := by
  simp [text_assign_speakers, h]

theorem text_assign_preserves (s : BindState) (cid cid' : ℕ) (n : String)
    (p : String × String) (h : s.cache cid = some p) :
    ((text_assign_speakers s cid' n).2).cache cid = some p := by
  rcases hc : s.cache cid' with _ | q
  · have hne : cid ≠ cid' := by
      intro e
      rw [e, hc] at h
      exact Option.noConfusion h
    simpa [text_assign_speakers, hc, cacheInsert, hne] using h
  · simpa [text_assign_speakers, hc] using h

theorem applyCallsText_preserves (calls : List (ℕ × String)) :
    ∀ (s : BindState) (cid : ℕ) (p : String × String), s.cache cid = some p →
      (applyCallsText s calls).cache cid = some p := by
  induction calls with
  | nil => intro s cid p h; simpa [applyCallsText] using h
  | cons c rest ih =>
    intro s cid p h
    rw [applyCallsText, List.foldl_cons]
    exact ih _ cid p (text_assign_preserves s cid c.1 c.2 p h)

/-- C5: for both speaker managers, any later `assign_speakers` call with
the same conversation_id — after any interleaved calls for other
conversations and with any persona argument — returns exactly the voice
pair of the first call: the pair is assigned once, cached, and the persona
argument is ignored on cache hits. -/
theorem speaker_binding_stable (s : BindState) (cid : ℕ) (n₁ n₂ : String)
    (calls : List (ℕ × String)) :
    (∀ p, (assign_speakers s cid n₁).1 = some p →
      (assign_speakers (applyCalls (assign_speakers s cid n₁).2 calls) cid n₂).1 = some p) ∧
    (text_assign_speakers (applyCallsText (text_assign_speakers s cid n₁).2 calls) cid n₂).1 =
      (text_assign_speakers s cid n₁).1 := by
  constructor
  · intro p h
    have h₁ := assign_speakers_sets s cid n₁ p h
    have h₂ := applyCalls_preserves calls _ cid p h₁
    exact (assign_speakers_hit _ cid n₂ p h₂).1
  · have h₁ := text_assign_sets s cid n₁
    have h₂ := applyCallsText_preserves calls _ cid _ h₁
    exact text_assign_hit _ cid n₂ _ h₂

/-- Witness for C5: fresh manager, first call binds conversation 1 for
agent "Ahmet"; after a call for conversation 2 the repeat call for
conversation 1 with a different persona returns the original pair. -/
theorem speaker_binding_stable_witness :
    (assign_speakers (applyCalls (assign_speakers emptyBindState 1 "Ahmet").2
        [(2, "Ayşe")]) 1 "Zeynep").1 = some ("agent_male_001", "user_male_001") ∧
    (text_assign_speakers (applyCallsText (text_assign_speakers emptyBindState 1 "Ahmet").2
        [(2, "Ayşe")]) 1 "Zeynep").1 = (text_assign_speakers emptyBindState 1 "Ahmet").1 :=
  ⟨(speaker_binding_stable emptyBindState 1 "Ahmet" "Zeynep" [(2, "Ayşe")]).1
      ("agent_male_001", "user_male_001") (by decide),
   (speaker_binding_stable emptyBindState 1 "Ahmet" "Zeynep" [(2, "Ayşe")]).2⟩

/-! ## C6: the TTS fallback chain -/

theorem google_success_provider (key : Option String) (net : NetOutcome) (text : String)
    (h : isSuccess (generate_google_cloud_audio key net text) = true) :
    providerOf (generate_google_cloud_audio key net text) = some "google_cloud" := by
  cases key <;> cases net <;>
    simp [generate_google_cloud_audio, isSuccess, providerOf] at h ⊢

/-- C6: in `EnhancedVoiceManager.generate_audio`, when the ElevenLabs
attempt fails (or ElevenLabs is unconfigured) and the configured Google
Cloud TTS attempt succeeds, the chain returns the Google result — whose
provider field is "google_cloud", not "elevenlabs"; and when every
high-quality provider fails or is unavailable, the chain returns the
hard-failure result instead of degrading to a low-quality provider. -/
theorem tts_fallback_chain (status : String → Bool) (elevenKey googleKey : Option String)
    (elevenNet googleNet : NetOutcome) (text : String) :
    (isSuccess (generate_elevenlabs_audio elevenKey elevenNet text) = false →
     status "google_cloud" = true →
     isSuccess (generate_google_cloud_audio googleKey googleNet text) = true →
     generate_audio status elevenKey googleKey elevenNet googleNet text =
        generate_google_cloud_audio googleKey googleNet text ∧
     providerOf (generate_audio status elevenKey googleKey elevenNet googleNet text) =
        some "google_cloud") ∧
    ((status "elevenlabs" = false ∨
        isSuccess (generate_elevenlabs_audio elevenKey elevenNet text) = false) →
     (status "google_cloud" = false ∨
        isSuccess (generate_google_cloud_audio googleKey googleNet text) = false) →
     generate_audio status elevenKey googleKey elevenNet googleNet text = noProviderError) := by
  constructor
  · intro hef hgs hgok
    have hres : generate_audio status elevenKey googleKey elevenNet googleNet text =
        generate_google_cloud_audio googleKey googleNet text := by
      rw [generate_audio, googleFallback]
      cases hse : status "elevenlabs" <;> simp [hse, hef, hgs, hgok, googleFallback]
    exact ⟨hres, hres ▸ google_success_provider googleKey googleNet text hgok⟩
  · intro h1 h2
    rw [generate_audio, googleFallback]
    rcases h2 with h2 | h2
    · rcases h1 with h1 | h1
      · simp [h1, h2]
      · cases hse : status "elevenlabs" <;> simp [hse, h1, h2]
    · rcases h1 with h1 | h1
      · cases hgs : status "google_cloud" <;> simp [h1, hgs, h2]
      · cases hse : status "elevenlabs" <;> cases hgs : status "google_cloud" <;>
          simp [hse, hgs, h1, h2]

/-- Witness for C6: ElevenLabs configured but rate-limited (HTTP 429);
Google Cloud TTS succeeds in the first scenario and returns HTTP 500 in
the second. -/
theorem tts_fallback_chain_witness :
    (generate_audio (fun _ => true) (some "k1") (some "k2") (.httpError 429 "quota")
        (.ok 1000) "Merhaba" =
      generate_google_cloud_audio (some "k2") (.ok 1000) "Merhaba" ∧
     providerOf (generate_audio (fun _ => true) (some "k1") (some "k2")
        (.httpError 429 "quota") (.ok 1000) "Merhaba") = some "google_cloud") ∧
    generate_audio (fun _ => true) (some "k1") (some "k2") (.httpError 429 "quota")
        (.httpError 500 "boom") "Merhaba" = noProviderError :=
  ⟨(tts_fallback_chain (fun _ => true) (some "k1") (some "k2") (.httpError 429 "quota")
      (.ok 1000) "Merhaba").1 rfl rfl rfl,
   (tts_fallback_chain (fun _ => true) (some "k1") (some "k2") (.httpError 429 "quota")
      (.httpError 500 "boom") "Merhaba").2 (Or.inr rfl) (Or.inr rfl)⟩

/-! ## C10: gender inference is total, agent voice pools are never empty -/

theorem randomChoice_mem (l : List String) (d : ℕ) (hl : l ≠ []) :
    ∃ v, randomChoice l d = some v ∧ v ∈ l := by
  cases l with
  | nil => exact absurd rfl hl
  | cons x xs =>
    refine ⟨(x :: xs).getD (d % (x :: xs).length) "", rfl, ?_⟩
    have hlt : d % (x :: xs).length < (x :: xs).length :=
      Nat.mod_lt _ (by simp)
    rw [List.getD_eq_getElem _ _ hlt]
    exact List.getElem_mem hlt

/-- C10: `get_gender_from_name` returns "male" or "female" on every input
(name sets first, then the e/a/ş/ü/ö suffix heuristic), and consequently
`get_voice_for_agent` always succeeds, choosing from the non-empty
gender-matched agent voice pool — the default-voice fallback the
specification mentions is never needed. -/
theorem gender_total_agent_voice_nonempty (name : String) (d : ℕ) :
    (get_gender_from_name name = "male" ∨ get_gender_from_name name = "female") ∧
    ∃ v, get_voice_for_agent name d = some v ∧
      v ∈ ENHANCED_VOICE_CONFIG_KEYS.filter
        (fun k => strStartsWith k ("agent_" ++ get_gender_from_name name ++ "_")) := by
  have hg : get_gender_from_name name = "male" ∨ get_gender_from_name name = "female" := by
    rw [get_gender_from_name]
    split_ifs <;> simp
  refine ⟨hg, ?_⟩
  rcases hg with h | h
  · rw [get_voice_for_agent, if_pos h, h]
    have hfil : ENHANCED_VOICE_CONFIG_KEYS.filter
        (fun k => strStartsWith k ("agent_" ++ "male" ++ "_")) =
        ["agent_male_001", "agent_male_002", "agent_male_003"] := by decide
    rw [hfil]
    have hfil' : ENHANCED_VOICE_CONFIG_KEYS.filter
        (fun k => strStartsWith k "agent_male_") =
        ["agent_male_001", "agent_male_002", "agent_male_003"] := by decide
    rw [hfil']
    exact randomChoice_mem _ d (by decide)
  · rw [get_voice_for_agent, if_neg (by rw [h]; decide), h]
    have hfil : ENHANCED_VOICE_CONFIG_KEYS.filter
        (fun k => strStartsWith k ("agent_" ++ "female" ++ "_")) =
        ["agent_female_001", "agent_female_002", "agent_female_003"] := by decide
    rw [hfil]
    have hfil' : ENHANCED_VOICE_CONFIG_KEYS.filter
        (fun k => strStartsWith k "agent_female_") =
        ["agent_female_001", "agent_female_002", "agent_female_003"] := by decide
    rw [hfil']
    exact randomChoice_mem _ d (by decide)

/-! ## C3 and C9: clean_and_parse_json -/

/-- C3: evaluation at the failing input.  On the 9-character string
consisting of an opening brace, the fence literal and a closing brace, the
fenced pattern does not match, the greedy pattern matches the whole string,
the extracted span contains the fence literal, and therefore the code calls
`match.group(1)` on the group-less greedy pattern: an uncaught `IndexError`
escapes, contradicting the never-raises guarantee. -/
theorem clean_and_parse_json_raises :
    clean_and_parse_json "\x7b\x60\x60\x60json\x7d".toList =
      ParseOutcome.raised "IndexError: no such group" := rfl

theorem startsWithChars_append (pat : List Char) :
    ∀ (l t : List Char), startsWithChars pat l = true →
      startsWithChars pat (l ++ t) = true := by
  induction pat with
  | nil => intro l t _; rfl
  | cons a ps ih =>
    intro l t h
    cases l with
    | nil => simp [startsWithChars] at h
    | cons b ls =>
      rw [List.cons_append]
      rw [startsWithChars] at h ⊢
      rw [Bool.and_eq_true] at h ⊢
      exact ⟨h.1, ih ls t h.2⟩

theorem containsSub_append_left (pat l₂ : List Char) (h : containsSub pat l₂ = true) :
    ∀ l₁, containsSub pat (l₁ ++ l₂) = true := by
  intro l₁
  induction l₁ with
  | nil => simpa using h
  | cons c rest ih =>
    rw [List.cons_append, containsSub, ih, Bool.or_true]

theorem containsSub_nil_pat : ∀ l : List Char, containsSub [] l = true := by
  intro l
  cases l with
  | nil => rfl
  | cons c rest => rw [containsSub]; rfl

theorem containsSub_extend (pat : List Char) :
    ∀ (g t : List Char), containsSub pat g = true → containsSub pat (g ++ t) = true := by
  intro g
  induction g with
  | nil =>
    intro t h
    rw [containsSub] at h
    have : pat = [] := by
      cases pat with
      | nil => rfl
      | cons a ps => simp [List.isEmpty] at h
    rw [this, List.nil_append]
    exact containsSub_nil_pat t
  | cons c g ih =>
    intro t h
    rw [containsSub, Bool.or_eq_true] at h
    rw [List.cons_append, containsSub, Bool.or_eq_true]
    rcases h with h | h
    · exact Or.inl (by
        have := startsWithChars_append pat (c :: g) t h
        rwa [List.cons_append] at this)
    · exact Or.inr (ih t h)

theorem upToLastClose_decomp :
    ∀ (l t : List Char), upToLastClose l = some t → ∃ r, t ++ r = l := by
  intro l
  induction l with
  | nil => intro t h; simp [upToLastClose] at h
  | cons c rest ih =>
    intro t h
    rw [upToLastClose] at h
    cases hu : upToLastClose rest with
    | some t' =>
      rw [hu] at h
      simp only [Option.some_inj] at h
      obtain ⟨r, hr⟩ := ih t' hu
      exact ⟨r, by rw [← h, List.cons_append, hr]⟩
    | none =>
      rw [hu] at h
      by_cases hc : c = rbrace
      · rw [if_pos hc] at h
        simp only [Option.some_inj] at h
        exact ⟨rest, by rw [← h]; simp⟩
      · rw [if_neg hc] at h
        exact absurd h (by simp)

theorem containsSub_of_greedy (pat l g : List Char) (hg : greedySearch l = some g)
    (h : containsSub pat g = true) : containsSub pat l = true := by
  rw [greedySearch] at hg
  cases hdw : l.dropWhile (fun c => c ≠ lbrace) with
  | nil => rw [hdw] at hg; exact absurd hg (by simp)
  | cons c rest =>
    rw [hdw] at hg
    dsimp only at hg
    cases hup : upToLastClose rest with
    | none => rw [hup] at hg; exact absurd hg (by simp)
    | some t =>
      rw [hup] at hg
      simp at hg
      subst hg
      obtain ⟨r, hr⟩ := upToLastClose_decomp rest t hup
      have h₂ : containsSub pat ((c :: t) ++ r) = true := containsSub_extend pat (c :: t) r h
      rw [List.cons_append, hr] at h₂
      have h₃ := containsSub_append_left pat (c :: rest) h₂ (l.takeWhile (fun c => c ≠ lbrace))
      rw [← hdw, List.takeWhile_append_dropWhile] at h₃
      exact h₃

theorem fencedSearch_eq_none :
    ∀ l : List Char, containsSub fenceJson l = false → fencedSearch l = none := by
  intro l
  induction l with
  | nil => intro _; rfl
  | cons c rest ih =>
    intro h
    rw [containsSub, Bool.or_eq_false_iff] at h
    rw [fencedSearch, matchFencedAt, h.1]
    exact ih h.2

/-- C9 counterexample: for the input consisting of the object
`\x7b"a": 1\x7d` followed by one stray closing brace (no fenced block),
the first balanced brace-delimited substring is valid JSON, yet
`clean_and_parse_json` returns the failure value `None` — the greedy
pattern grabs everything up to the *last* closing brace and `json.loads`
rejects the trailing garbage. -/
theorem greedy_not_first_balanced :
    clean_and_parse_json "\x7b\"a\": 1\x7d\x7d".toList = ParseOutcome.failure ∧
    json_loads "\x7b\"a\": 1\x7d".toList = some (JsonValue.obj [(['a'], JsonValue.num ['1'])]) :=
  ⟨rfl, rfl⟩

/-- C9 amended: on every input containing no fence literal, the function
behaves as the greedy-span parser: the span from the first opening brace to
the last closing brace is parsed as one JSON document (yielding its parse
exactly when the whole span is valid JSON), and the result is `None`
otherwise — not the parse of the first balanced substring. -/
theorem clean_and_parse_json_unfenced (l : List Char)
    (hnf : containsSub fenceJson l = false) :
    clean_and_parse_json l = greedySpanBehavior l := by
  rw [clean_and_parse_json, greedySpanBehavior, fencedSearch_eq_none l hnf]
  cases hg : greedySearch l with
  | none => simp [hg]
  | some g =>
    have hcf : containsSub fenceJson g = false := by
      cases hc : containsSub fenceJson g
      · rfl
      · exact absurd (containsSub_of_greedy fenceJson l g hg hc) (by rw [hnf]; simp)
    simp [hg, hcf]

/-- Witness for the amended C9 at a concrete unfenced input. -/
theorem clean_and_parse_json_unfenced_witness :
    containsSub fenceJson "x\x7b\"a\": 1\x7d".toList = false ∧
    clean_and_parse_json "x\x7b\"a\": 1\x7d".toList =
      greedySpanBehavior "x\x7b\"a\": 1\x7d".toList :=
  ⟨rfl, clean_and_parse_json_unfenced _ rfl⟩

end SentetikVeri
